import Mathlib

/-!
Shallow embedding of the MCP client pool (`control_plane/src/mcp_client_pool.py`):
the process-pool / JSON-RPC multiplexer that owns subprocess lifecycle, request
correlation, capability discovery and call routing.

Modelling conventions:
* Python JSON values are the inductive `JValue`; Python dicts holding JSON are
  association lists (`JObj`) with first-match lookup (Python dict keys are
  unique, so first-match agrees with dict semantics).
* The per-server pending-request map `pending_requests : Dict[str, Future]`
  is keyed in Python by `str(request_id_counter)` with the counter
  incremented before use, so every key is the decimal string of a positive
  natural number and decimal rendering is injective on naturals.  We
  therefore index pending entries by the underlying counter value
  (`List Nat`); the future stored under a key is abstracted away and the
  resolution action is returned explicitly.  The Python guard
  `if response_id and str(response_id) in pending` tests truthiness first;
  a falsy id (`None`, `0`, `""`, `False`) renders to a string that is never
  a pending key (keys are decimal strings of counters that start at 1), so
  the truthiness test never changes which branch runs; a frame id is
  modelled as `Option Nat`: `some n` when its `str()` is the decimal
  rendering of `n`, `none` when the id is absent or matches no such form.
* Effects that cross an `await` boundary (whether the subprocess answered
  within the 30 s deadline, whether a spawn succeeded) are supplied as
  explicit oracle outcomes, and each handler's state transition is the
  literal sequence of assignments the Python performs.
* Wall-clock instants (`time.time()`) are abstract `Nat` ticks.
-/

namespace MCPPool

/-- JSON values, the payloads Python passes around as parsed `json.loads`
output. -/
inductive JValue where
  | null : JValue
  | bool (b : Bool) : JValue
  | num (n : Int) : JValue
  | str (s : String) : JValue
  | arr (elems : List JValue) : JValue
  | obj (fields : List (String × JValue)) : JValue

/-- Python dict holding JSON values (e.g. a parsed JSON-RPC frame). -/
abbrev JObj := List (String × JValue)

/-- Python `d.get(k)`: the value bound to `k`, if any. -/
def dictGet (d : JObj) (k : String) : Option JValue :=
  match d with
  | [] => none
  | (k', v) :: rest => if k' = k then some v else dictGet rest k

/-- Python `k in d`. -/
def dictContains (d : JObj) (k : String) : Bool :=
  (dictGet d k).isSome

/-- Python `d.get(k, default)`. -/
def dictGetD (d : JObj) (k : String) (default : JValue) : JValue :=
  (dictGet d k).getD default

/-- Enum `ServerStatus` of `mcp_client_pool.py`. -/
inductive ServerStatus where
  | starting : ServerStatus
  | running : ServerStatus
  | failed : ServerStatus
  | stopped : ServerStatus
deriving Repr, DecidableEq

/-- Configuration record `MCPServerConfig` of `config.py` (the fields the
pool reads; `name`/`timeout`/`type` are informational to the pool and
carried verbatim). -/
structure MCPServerConfig where
  id : String
  type : String
  command : List String
  args : List String := []
  cwd : Option String := none
  env : List (String × String) := []
  timeout : Nat := 30
  restart_on_failure : Bool := true
  enabled : Bool := true
deriving Repr, DecidableEq

/-- Handle to a spawned child process (`asyncio.subprocess.Process`):
`returncode` is `none` while the child is alive. -/
structure ProcHandle where
  returncode : Option Int
deriving Repr, DecidableEq

/-- Dataclass `MCPServerInstance`: one managed server.  `pending_requests`
holds the keys of the outstanding-request map (see the module comment for
the key encoding); the stored futures are abstracted. -/
structure MCPServerInstance where
  config : MCPServerConfig
  process : Option ProcHandle := none
  status : ServerStatus := ServerStatus.stopped
  start_time : Option Nat := none
  failure_count : Nat := 0
  last_error : Option String := none
  request_count : Nat := 0
  request_id_counter : Nat := 0
  pending_requests : List Nat := []
deriving Repr, DecidableEq

/-- Outcome of the `asyncio.create_subprocess_exec` call inside
`_start_server`: either a live process or a raised exception. -/
inductive SpawnOutcome where
  | ok : SpawnOutcome
  | fail (err : String) : SpawnOutcome
deriving Repr, DecidableEq

/-- Method `MCPClientPool._start_server`, acting on one server record.
The Python sets `status = STARTING`, builds argv and environment (pure
data mapping, no record effect), spawns, and on success stores the handle,
records the start time and marks `RUNNING`; a spawn exception marks
`FAILED`, records the error and increments `failure_count`, leaving any
previous `process` value in place (the assignment never ran). -/
def startServer (server : MCPServerInstance) (outcome : SpawnOutcome)
    (now : Nat) : MCPServerInstance :=
  let server := { server with status := ServerStatus.starting }
  match outcome with
  | SpawnOutcome.ok =>
      { server with
          process := some { returncode := none },
          start_time := some now,
          status := ServerStatus.running }
  | SpawnOutcome.fail e =>
      { server with
          status := ServerStatus.failed,
          last_error := some e,
          failure_count := server.failure_count + 1 }

/-- Method `MCPClientPool._stop_server`: if a handle is present, terminate
(escalating to kill after 5 s; both paths reach the same state), mark
`STOPPED` and clear the handle; with no handle the method does nothing.
Pending requests are not touched. -/
def stopServer (server : MCPServerInstance) : MCPServerInstance :=
  match server.process with
  | none => server
  | some _ =>
      { server with
          status := ServerStatus.stopped,
          process := none }

/-- Continuation chosen by one iteration of the `_monitor_server` loop. -/
inductive MonitorAction where
  | exitLoop : MonitorAction
  | idle : MonitorAction
  | restartAfter (delaySec : Nat) : MonitorAction
  | breakLoop : MonitorAction
deriving Repr, DecidableEq

/-- One iteration of `MCPClientPool._monitor_server`, up to the point where
control leaves the loop body: the `while self.running and
server.config.enabled` guard, the death check `server.process and
server.process.returncode is not None`, and on a detected death the
transition to `FAILED`, the counter increment, and the restart decision
`restart_on_failure and failure_count < 5` with backoff
`min(2 ** failure_count, 30)`.  `restartAfter d` means the loop is now in
`await asyncio.sleep(d)` and will call `_start_server` when it wakes. -/
def monitorCheck (running : Bool) (server : MCPServerInstance) :
    MCPServerInstance × MonitorAction :=
  if ¬ (running ∧ server.config.enabled) then
    (server, MonitorAction.exitLoop)
  else
    match server.process with
    | some p =>
        match p.returncode with
        | some _ =>
            let server := { server with
              status := ServerStatus.failed,
              failure_count := server.failure_count + 1 }
            if server.config.restart_on_failure ∧ server.failure_count < 5 then
              (server, MonitorAction.restartAfter (min (2 ^ server.failure_count) 30))
            else
              (server, MonitorAction.breakLoop)
        | none => (server, MonitorAction.idle)
    | none => (server, MonitorAction.idle)

/-- Resumption of `_monitor_server` after its backoff sleep: the very next
statement is `await self._start_server(server_id)` — the code consults
neither `self.running` nor anything else between the sleep and the
restart. -/
def monitorResumeAfterBackoff (server : MCPServerInstance)
    (outcome : SpawnOutcome) (now : Nat) : MCPServerInstance :=
  startServer server outcome now

/-- Python truthiness of a JSON value (`if response_id:`, `if tool_name:`,
`if params:`): `None`, `False`, `0`, the empty string, the empty list and
the empty dict are falsy, everything else truthy. -/
def pyTruthy : JValue → Bool
  | JValue.null => false
  | JValue.bool b => b
  | JValue.num n => n != 0
  | JValue.str s => !(s == "")
  | JValue.arr elems => !elems.isEmpty
  | JValue.obj fields => !fields.isEmpty

/-- Pending-map key denoted by a frame's id value.  Python tests
`str(response_id) in pending` where every pending key is `str(c)` for a
counter value `c : Nat`, so a frame id matches the key for `c` exactly
when its `str()` is the canonical decimal rendering of `c`.
`frameKey v = some c` captures this: a string matches when it is itself
that rendering (`toString c = s`, which also rejects non-canonical forms
like a leading zero, just as Python string equality does); a nonnegative
int renders to the same decimal form; a negative int renders with a sign,
`True`/`False`/`None` render as words, and a list or dict renders with
bracket characters — none of these can equal a decimal key, so they map
to `none`. -/
def frameKey : JValue → Option Nat
  | JValue.str s =>
      match s.toNat? with
      | some c => if toString c = s then some c else none
      | none => none
  | JValue.num (Int.ofNat c) => some c
  | _ => none

/-- Action taken by `_handle_server_response` on one frame. -/
inductive HandleAction where
  | resolved (requestKey : Nat) (response : JObj) : HandleAction
  | unsolicited : HandleAction

/-- Method `MCPClientPool._handle_server_response`: `response.get("id")`;
when the id is truthy and `str(id)` is a key of `pending_requests`, the
entry is popped and its future resolved with the full frame; otherwise the
frame is a notification or unsolicited response, logged and dropped. -/
def handleServerResponse (server : MCPServerInstance) (response : JObj) :
    MCPServerInstance × HandleAction :=
  match dictGet response "id" with
  | some v =>
      if pyTruthy v then
        match frameKey v with
        | some rid =>
            if rid ∈ server.pending_requests then
              ({ server with
                   pending_requests := server.pending_requests.erase rid },
               HandleAction.resolved rid response)
            else
              (server, HandleAction.unsolicited)
        | none => (server, HandleAction.unsolicited)
      else
        (server, HandleAction.unsolicited)
  | none => (server, HandleAction.unsolicited)

/-- Timeout passed to `asyncio.wait_for` in `_send_request`
(`timeout=30.0`): the fixed per-request deadline, in seconds. -/
def requestTimeoutSeconds : Nat := 30

/-- Insertion `pending_requests[request_id] = future` into a Python dict:
a present key keeps its position with the value replaced (keys-only view:
the list is unchanged), a fresh key is appended. -/
def pendingInsert (l : List Nat) (k : Nat) : List Nat :=
  if k ∈ l then l else l ++ [k]

/-- Resolution of the `await asyncio.wait_for(future, timeout=30.0)` in
`_send_request`, decided outside the pool's control: the future resolves
with a frame within the deadline, the deadline elapses, or the preceding
`stdin.write`/`drain` raises. -/
inductive SendOutcome where
  | response (resp : JObj) : SendOutcome
  | timeout : SendOutcome
  | writeError (err : String) : SendOutcome

/-- Result of `_send_request` as seen by its caller: the returned response
dict, or one of the `RuntimeError`s the method raises (server not running,
request timed out, error sending). -/
inductive SendResult where
  | ok (resp : JObj) : SendResult
  | notRunningErr : SendResult
  | timedOutErr : SendResult
  | sendErr (err : String) : SendResult

/-- Request object built by `_send_request`: `jsonrpc`/`id`/`method`, with
`params` attached only when truthy (a non-empty dict). -/
def buildRequest (request_id : String) (method : String)
    (params : Option JObj) : JObj :=
  let base : JObj :=
    [("jsonrpc", JValue.str "2.0"),
     ("id", JValue.str request_id),
     ("method", JValue.str method)]
  match params with
  | some p => if p.isEmpty then base else base ++ [("params", JValue.obj p)]
  | none => base

/-- Effect of one `_send_request` call: the updated server record, the
caller-visible result, and the frame handed to `stdin.write` (`none` when
the not-running guard raised before anything was written). -/
structure SendStep where
  server : MCPServerInstance
  result : SendResult
  written : Option JObj

/-- Method `MCPClientPool._send_request`.  Guard: the server must exist,
be `RUNNING` and hold a process handle.  Then the id counter is
incremented, the request built under key `str(counter)`, a future stored
in `pending_requests`, and the frame written.  On a write error or a
timeout the entry is popped (`pop(request_id, None)`) and a `RuntimeError`
raised; `request_count` is incremented only once the write succeeded.  A
response can only arrive by `_handle_server_response` popping this very
entry before resolving the future, so on the success path the entry is
likewise gone when `await` returns. -/
def sendRequest (server : MCPServerInstance) (method : String)
    (params : Option JObj) (outcome : SendOutcome) : SendStep :=
  if server.status ≠ ServerStatus.running ∨ server.process = none then
    { server := server, result := SendResult.notRunningErr, written := none }
  else
    let rid := server.request_id_counter + 1
    let request := buildRequest (toString rid) method params
    let server := { server with
      request_id_counter := rid,
      pending_requests := pendingInsert server.pending_requests rid }
    match outcome with
    | SendOutcome.writeError e =>
        { server := { server with
            pending_requests := server.pending_requests.erase rid },
          result := SendResult.sendErr e,
          written := some request }
    | SendOutcome.timeout =>
        { server := { server with
            request_count := server.request_count + 1,
            pending_requests := server.pending_requests.erase rid },
          result := SendResult.timedOutErr,
          written := some request }
    | SendOutcome.response resp =>
        { server := { server with
            request_count := server.request_count + 1,
            pending_requests := server.pending_requests.erase rid },
          result := SendResult.ok resp,
          written := some request }

/-- Lookup `d.get(k)` in a Python dict with string keys (the pool's
`servers` and `tool_registry` dicts). -/
def alistGet {β : Type} (l : List (String × β)) (k : String) : Option β :=
  match l with
  | [] => none
  | (k', v) :: rest => if k' = k then some v else alistGet rest k

/-- Assignment `d[k] = v` in a Python dict: a present key keeps its
position with the value replaced, a fresh key is appended. -/
def alistInsert {β : Type} (l : List (String × β)) (k : String) (v : β) :
    List (String × β) :=
  match l with
  | [] => [(k, v)]
  | (k', v') :: rest =>
      if k' = k then (k, v) :: rest else (k', v') :: alistInsert rest k v

/-- Class `MCPClientPool`: configs, the `servers` dict, the
`tool_registry` dict (tool name → owning server id) and the `running`
flag. -/
structure MCPClientPool where
  server_configs : List MCPServerConfig
  servers : List (String × MCPServerInstance) := []
  tool_registry : List (String × String) := []
  running : Bool := false

/-- Registration loop body of `_discover_tools` over the `tools` array of
one server's `tools/list` response.  A tool that is a dict with a truthy
string name is registered (`tool_registry[name] = server_id`); a dict
whose `name` is absent or falsy is skipped and the loop continues; a
non-dict element raises (`tool.get` on a non-dict) into the per-server
`except`, abandoning the remaining elements but keeping registrations
already made.  (A truthy non-string scalar name would be registered in
Python under a non-string key, which a `call_tool` string lookup can never
hit; such keys are not modelled and the element is skipped.) -/
def registerToolList (reg : List (String × String)) (serverId : String) :
    List JValue → List (String × String)
  | [] => reg
  | JValue.obj fields :: rest =>
      (match dictGet fields "name" with
       | some (JValue.str s) =>
           if pyTruthy (JValue.str s) then
             registerToolList (alistInsert reg s serverId) serverId rest
           else
             registerToolList reg serverId rest
       | some _ => registerToolList reg serverId rest
       | none => registerToolList reg serverId rest)
  | _ :: _ => reg

/-- Registry effect of one server's `tools/list` response in
`_discover_tools`: `if "result" in response and "tools" in
response["result"]`, iterate the tools and register each by name.  A
`result` that is not a dict, or a `tools` member that is not a list,
raises while indexing or iterating and is caught per-server, leaving the
registry untouched for this server. -/
def registerTools (reg : List (String × String)) (serverId : String)
    (resp : JObj) : List (String × String) :=
  match dictGet resp "result" with
  | some (JValue.obj result) =>
      match dictGet result "tools" with
      | some (JValue.arr tools) => registerToolList reg serverId tools
      | _ => reg
  | _ => reg

/-- Body of the `_discover_tools` loop for one server id: servers not in
status `RUNNING` are skipped; otherwise a `tools/list` request is sent
and, on success, its advertised tools registered; any failure of the
request is caught and logged, contributing nothing. -/
def discoverOne (pool : MCPClientPool) (sid : String)
    (outcome : SendOutcome) : MCPClientPool :=
  match alistGet pool.servers sid with
  | none => pool
  | some server =>
      if server.status = ServerStatus.running then
        let step := sendRequest server "tools/list" none outcome
        let pool := { pool with
          servers := alistInsert pool.servers sid step.server }
        match step.result with
        | SendResult.ok resp =>
            { pool with
                tool_registry := registerTools pool.tool_registry sid resp }
        | _ => pool
      else
        pool

/-- Method `MCPClientPool._discover_tools`: clears the registry and runs
`discoverOne` over every server in dict order; `outcomes` supplies each
server's request resolution. -/
def discoverTools (pool : MCPClientPool) (outcomes : String → SendOutcome) :
    MCPClientPool :=
  let pool := { pool with tool_registry := [] }
  (pool.servers.map Prod.fst).foldl
    (fun p sid => discoverOne p sid (outcomes sid)) pool

/-- Instance-creation loop of `MCPClientPool.start`: for every enabled
config, `servers[config.id] = MCPServerInstance(config=config)` — a fresh
record with all dataclass defaults. -/
def initServers (pool : MCPClientPool) : MCPClientPool :=
  { pool with
      servers := pool.server_configs.foldl
        (fun acc config =>
          if config.enabled then
            alistInsert acc config.id { config := config }
          else
            acc)
        pool.servers }

/-- Start phase of `MCPClientPool.start`: `_start_server` for every server
in the dict (the `asyncio.gather` starts touch disjoint records, so dict
order is an equivalent interleaving); `outcomes` supplies each spawn's
fate. -/
def startPhase (pool : MCPClientPool) (outcomes : String → SpawnOutcome)
    (now : Nat) : MCPClientPool :=
  { pool with
      servers := pool.servers.map
        (fun e => (e.1, startServer e.2 (outcomes e.1) now)) }

/-- Method `MCPClientPool.start` (start_all): sets `running = True`,
creates instances for enabled configs, starts them all, then runs one
`_discover_tools` pass. -/
def startAll (pool : MCPClientPool) (outcomes : String → SpawnOutcome)
    (now : Nat) (discOutcomes : String → SendOutcome) : MCPClientPool :=
  let pool := { pool with running := true }
  let pool := initServers pool
  let pool := startPhase pool outcomes now
  discoverTools pool discOutcomes

/-- Method `MCPClientPool.stop` (stop_all): clears `running`, then
`_stop_server` for every server in the dict. -/
def stopAll (pool : MCPClientPool) : MCPClientPool :=
  let pool := { pool with running := false }
  { pool with servers := pool.servers.map (fun e => (e.1, stopServer e.2)) }

/-- Method `MCPClientPool.get_status`: status of every server, keyed by
id. -/
def getStatus (pool : MCPClientPool) : List (String × ServerStatus) :=
  pool.servers.map (fun e => (e.1, e.2.status))

/-- Result of `call_tool` as seen by its caller: the remote `result`
object, or one of the raised failures (tool not found, remote JSON-RPC
error converted to a `RuntimeError` carrying the error object, or a
propagated `_send_request` failure). -/
inductive CallToolResult where
  | ok (result : JValue) : CallToolResult
  | toolNotFound : CallToolResult
  | toolExecutionFailed (err : JValue) : CallToolResult
  | requestError (r : SendResult) : CallToolResult

/-- Effect of one `call_tool` call: the updated pool and the
caller-visible result. -/
structure CallToolStep where
  pool : MCPClientPool
  result : CallToolResult

/-- Method `MCPClientPool.call_tool`: resolve the owning server through
`tool_registry` (raising when absent, before anything is sent), forward a
`tools/call` request with `name`/`arguments` params, convert a remote
`error` member into a failure, and otherwise return
`response.get("result", empty dict)`. -/
def callTool (pool : MCPClientPool) (toolName : String) (arguments : JObj)
    (outcome : SendOutcome) : CallToolStep :=
  match alistGet pool.tool_registry toolName with
  | none => { pool := pool, result := CallToolResult.toolNotFound }
  | some sid =>
      let params : JObj :=
        [("name", JValue.str toolName), ("arguments", JValue.obj arguments)]
      match alistGet pool.servers sid with
      | none =>
          { pool := pool,
            result := CallToolResult.requestError SendResult.notRunningErr }
      | some server =>
          let step := sendRequest server "tools/call" (some params) outcome
          let pool := { pool with
            servers := alistInsert pool.servers sid step.server }
          match step.result with
          | SendResult.ok resp =>
              if dictContains resp "error" then
                { pool := pool,
                  result := CallToolResult.toolExecutionFailed
                    (dictGetD resp "error" JValue.null) }
              else
                { pool := pool,
                  result := CallToolResult.ok
                    (dictGetD resp "result" (JValue.obj [])) }
          | r => { pool := pool, result := CallToolResult.requestError r }

/-- Lifecycle view of a server record: the pair of fields `get_status`
and `_stop_server` depend on.  Discovery sends requests but never touches
these fields. -/
def serverLifeView (s : MCPServerInstance) : ServerStatus × Option ProcHandle :=
  (s.status, s.process)

/-! Concrete states used to instantiate the theorems below. -/

/-- Sample configuration (restart and enabled flags at their defaults). -/
def demoConfig : MCPServerConfig :=
  { id := "srv", type := "python", command := ["python", "server.py"] }

/-- A healthy running server with two outstanding requests. -/
def demoServer : MCPServerInstance :=
  { config := demoConfig,
    process := some { returncode := none },
    status := ServerStatus.running,
    request_id_counter := 2,
    pending_requests := [1, 2] }

/-- A server whose child has exited (the state the monitor loop's death
check observes): the handle is still present, with a returncode set. -/
def crashedServer : MCPServerInstance :=
  { config := demoConfig,
    process := some { returncode := some 1 },
    status := ServerStatus.running }

/-- A server that was never started. -/
def freshServer : MCPServerInstance := { config := demoConfig }

/-- A pool holding one enabled config, before `start`. -/
def demoPool : MCPClientPool := { server_configs := [demoConfig] }

/-- A pool with one running server owning tool `echo` (the state after a
successful `start` and discovery). -/
def demoReadyPool : MCPClientPool :=
  { server_configs := [demoConfig],
    servers := [("srv", demoServer)],
    tool_registry := [("echo", "srv")],
    running := true }

/-- A remote error object as in the spec's wire examples. -/
def demoError : JValue :=
  JValue.obj [("code", JValue.num (-32601)), ("message", JValue.str "no such tool")]

/-- A response frame carrying a JSON-RPC error object. -/
def demoErrorResp : JObj :=
  [("jsonrpc", JValue.str "2.0"), ("id", JValue.str "3"),
   ("error", demoError)]

/-- A success response frame with no `result` member. -/
def demoBareResp : JObj :=
  [("jsonrpc", JValue.str "2.0"), ("id", JValue.str "3")]

/-- State of the crashed server once the monitor loop has observed the
exit and entered its backoff sleep. -/
def serverAtBackoff : MCPServerInstance := (monitorCheck true crashedServer).1

/-- Pool state at the moment `stop()` is called, while that monitor loop
is still inside its backoff sleep. -/
def poolAtShutdown : MCPClientPool :=
  { server_configs := [demoConfig],
    servers := [("srv", serverAtBackoff)],
    tool_registry := [],
    running := true }

/-! Invariant of the per-server correlator state, and how each operation
acts on the correlator fields. -/

/-- Well-formedness of a server's correlator state: outstanding keys are
pairwise distinct and every one was allocated from the counter (positive
and no larger than the counter's current value).  A fresh
`MCPServerInstance` satisfies it trivially, and the theorems below show
every operation preserves it. -/
abbrev PendingInv (s : MCPServerInstance) : Prop :=
  s.pending_requests.Nodup ∧
  ∀ k ∈ s.pending_requests, 1 ≤ k ∧ k ≤ s.request_id_counter

theorem pendingInsert_erase (l : List Nat) (k : Nat) (hk : k ∉ l) :
    (pendingInsert l k).erase k = l := by
  unfold pendingInsert
  rw [if_neg hk, List.erase_append_right _ hk]
  simp

theorem fresh_key_not_pending (s : MCPServerInstance) (h : PendingInv s) :
    s.request_id_counter + 1 ∉ s.pending_requests := by
  intro hmem
  have := (h.2 _ hmem).2
  omega

theorem sendRequest_guard_raise (s : MCPServerInstance) (m : String)
    (p : Option JObj) (o : SendOutcome)
    (hg : s.status ≠ ServerStatus.running ∨ s.process = none) :
    sendRequest s m p o =
      { server := s, result := SendResult.notRunningErr, written := none } := by
  unfold sendRequest
  rw [if_pos hg]

theorem sendRequest_pending_eq (s : MCPServerInstance) (m : String)
    (p : Option JObj) (o : SendOutcome)
    (hfresh : s.request_id_counter + 1 ∉ s.pending_requests) :
    (sendRequest s m p o).server.pending_requests = s.pending_requests := by
  unfold sendRequest
  by_cases hg : s.status ≠ ServerStatus.running ∨ s.process = none
  · rw [if_pos hg]
  · rw [if_neg hg]
    cases o <;> simp [pendingInsert_erase _ _ hfresh]

theorem sendRequest_counter (s : MCPServerInstance) (m : String)
    (p : Option JObj) (o : SendOutcome) :
    (sendRequest s m p o).server.request_id_counter = s.request_id_counter ∨
    (sendRequest s m p o).server.request_id_counter = s.request_id_counter + 1 := by
  unfold sendRequest
  by_cases hg : s.status ≠ ServerStatus.running ∨ s.process = none
  · rw [if_pos hg]; exact Or.inl rfl
  · rw [if_neg hg]
    cases o <;> exact Or.inr rfl

theorem sendRequest_counter_of_sent (s : MCPServerInstance) (m : String)
    (p : Option JObj) (o : SendOutcome)
    (hs : (sendRequest s m p o).result ≠ SendResult.notRunningErr) :
    (sendRequest s m p o).server.request_id_counter = s.request_id_counter + 1 := by
  unfold sendRequest at hs ⊢
  by_cases hg : s.status ≠ ServerStatus.running ∨ s.process = none
  · rw [if_pos hg] at hs
    exact absurd rfl hs
  · rw [if_neg hg]
    cases o <;> rfl

theorem sendRequest_immutable_fields (s : MCPServerInstance) (m : String)
    (p : Option JObj) (o : SendOutcome) :
    (sendRequest s m p o).server.status = s.status ∧
    (sendRequest s m p o).server.process = s.process ∧
    (sendRequest s m p o).server.failure_count = s.failure_count ∧
    (sendRequest s m p o).server.config = s.config := by
  unfold sendRequest
  by_cases hg : s.status ≠ ServerStatus.running ∨ s.process = none
  · rw [if_pos hg]; exact ⟨rfl, rfl, rfl, rfl⟩
  · rw [if_neg hg]
    cases o <;> exact ⟨rfl, rfl, rfl, rfl⟩

theorem sendRequest_pendingInv (s : MCPServerInstance) (m : String)
    (p : Option JObj) (o : SendOutcome) (h : PendingInv s) :
    PendingInv (sendRequest s m p o).server := by
  have hfresh := fresh_key_not_pending s h
  have hp := sendRequest_pending_eq s m p o hfresh
  rcases sendRequest_counter s m p o with hc | hc <;>
  · rw [PendingInv, hp, hc]
    refine ⟨h.1, fun k hk => ?_⟩
    have := h.2 k hk
    omega

theorem startServer_correlator_fields (s : MCPServerInstance)
    (oc : SpawnOutcome) (n : Nat) :
    (startServer s oc n).request_id_counter = s.request_id_counter ∧
    (startServer s oc n).pending_requests = s.pending_requests := by
  cases oc <;> exact ⟨rfl, rfl⟩

theorem stopServer_correlator_fields (s : MCPServerInstance) :
    (stopServer s).request_id_counter = s.request_id_counter ∧
    (stopServer s).pending_requests = s.pending_requests := by
  unfold stopServer
  cases s.process <;> exact ⟨rfl, rfl⟩

theorem monitorCheck_correlator_fields (r : Bool) (s : MCPServerInstance) :
    ((monitorCheck r s).1).request_id_counter = s.request_id_counter ∧
    ((monitorCheck r s).1).pending_requests = s.pending_requests := by
  unfold monitorCheck
  dsimp only
  repeat' split
  all_goals exact ⟨rfl, rfl⟩

theorem handleServerResponse_counter (s : MCPServerInstance) (resp : JObj) :
    ((handleServerResponse s resp).1).request_id_counter =
      s.request_id_counter := by
  unfold handleServerResponse
  repeat' split
  all_goals rfl

theorem handleServerResponse_pendingInv (s : MCPServerInstance) (resp : JObj)
    (h : PendingInv s) : PendingInv (handleServerResponse s resp).1 := by
  unfold handleServerResponse
  repeat' split
  all_goals first
    | exact h
    | exact ⟨h.1.erase _, fun k hk => h.2 k (List.mem_of_mem_erase hk)⟩

theorem handleServerResponse_no_key_unchanged (s : MCPServerInstance)
    (resp : JObj) (v : JValue) (rid : Nat)
    (hid : dictGet resp "id" = some v) (hk : frameKey v = some rid)
    (hnm : rid ∉ s.pending_requests) :
    handleServerResponse s resp = (s, HandleAction.unsolicited) := by
  unfold handleServerResponse
  rw [hid]
  dsimp only
  by_cases ht : pyTruthy v = true
  · rw [if_pos ht, hk]
    dsimp only
    rw [if_neg hnm]
  · rw [if_neg ht]

theorem sendRequest_timeout_result (s : MCPServerInstance) (m : String)
    (p : Option JObj)
    (hg : ¬ (s.status ≠ ServerStatus.running ∨ s.process = none)) :
    (sendRequest s m p SendOutcome.timeout).result =
      SendResult.timedOutErr := by
  unfold sendRequest
  rw [if_neg hg]

theorem sendRequest_response_result (s : MCPServerInstance) (m : String)
    (p : Option JObj) (resp : JObj)
    (hg : ¬ (s.status ≠ ServerStatus.running ∨ s.process = none)) :
    (sendRequest s m p (SendOutcome.response resp)).result =
      SendResult.ok resp := by
  unfold sendRequest
  rw [if_neg hg]

theorem running_guard_neg (s : MCPServerInstance)
    (hrun : s.status = ServerStatus.running) (hproc : s.process ≠ none) :
    ¬ (s.status ≠ ServerStatus.running ∨ s.process = none) := by
  rintro (hne | hpn)
  · exact hne hrun
  · exact hproc hpn

theorem handleServerResponse_cases (s : MCPServerInstance) (resp : JObj) :
    (∃ rid, rid ∈ s.pending_requests ∧
      handleServerResponse s resp =
        ({ s with pending_requests := s.pending_requests.erase rid },
         HandleAction.resolved rid resp)) ∨
    handleServerResponse s resp = (s, HandleAction.unsolicited) := by
  unfold handleServerResponse
  rcases dictGet resp "id" with _ | v
  · exact Or.inr rfl
  · dsimp only
    by_cases ht : pyTruthy v = true
    · rw [if_pos ht]
      rcases frameKey v with _ | k
      · exact Or.inr rfl
      · dsimp only
        by_cases hm : k ∈ s.pending_requests
        · rw [if_pos hm]
          exact Or.inl ⟨k, hm, rfl⟩
        · rw [if_neg hm]
          exact Or.inr rfl
    · rw [if_neg ht]
      exact Or.inr rfl

theorem handleServerResponse_resolved_inv (s : MCPServerInstance)
    (resp : JObj) (rid : Nat) (r : MCPServerInstance)
    (hnd : s.pending_requests.Nodup)
    (heq : handleServerResponse s resp = (r, HandleAction.resolved rid resp)) :
    rid ∈ s.pending_requests ∧
    r.pending_requests = s.pending_requests.erase rid ∧
    rid ∉ r.pending_requests := by
  rcases handleServerResponse_cases s resp with ⟨k, hm, hk⟩ | hu
  · rw [hk] at heq
    simp only [Prod.mk.injEq, HandleAction.resolved.injEq] at heq
    obtain ⟨h1, h2, -⟩ := heq
    subst h2
    rw [← h1]
    refine ⟨hm, rfl, fun hmem => ?_⟩
    exact absurd ((hnd.mem_erase_iff).1 hmem).1 (by simp)
  · rw [hu] at heq
    simp at heq

theorem handleServerResponse_unsolicited_unchanged (s : MCPServerInstance)
    (resp : JObj)
    (hact : (handleServerResponse s resp).2 = HandleAction.unsolicited) :
    (handleServerResponse s resp).1 = s := by
  rcases handleServerResponse_cases s resp with ⟨k, hm, hk⟩ | hu
  · rw [hk] at hact
    simp at hact
  · rw [hu]

/-- C1: for every managed process, request ids allocated by `_send_request`
are unique among the currently outstanding requests of that process (the
freshly allocated id `counter + 1` is never already pending, and the
outstanding keys stay pairwise distinct), and the per-process
`request_id_counter` never decreases: a send that passes the running guard
increments it by exactly one, and `_start_server` (also when re-invoked
across restarts of the process handle), `_stop_server`, the monitor loop
and the response handler all leave it untouched, so successive sends to
the same process object never produce duplicate ids. -/
theorem request_ids_unique_counter_monotonic (s : MCPServerInstance)
    (h : PendingInv s) (m : String) (p : Option JObj) (o : SendOutcome)
    (oc : SpawnOutcome) (n : Nat) (r : Bool) (resp : JObj) :
    PendingInv (sendRequest s m p o).server ∧
    s.request_id_counter ≤ (sendRequest s m p o).server.request_id_counter ∧
    ((sendRequest s m p o).result ≠ SendResult.notRunningErr →
      (sendRequest s m p o).server.request_id_counter =
        s.request_id_counter + 1 ∧
      s.request_id_counter + 1 ∉ s.pending_requests) ∧
    (startServer s oc n).request_id_counter = s.request_id_counter ∧
    (stopServer s).request_id_counter = s.request_id_counter ∧
    ((monitorCheck r s).1).request_id_counter = s.request_id_counter ∧
    ((handleServerResponse s resp).1).request_id_counter =
      s.request_id_counter ∧
    PendingInv (handleServerResponse s resp).1 := by
  refine ⟨sendRequest_pendingInv s m p o h, ?_, ?_,
    (startServer_correlator_fields s oc n).1,
    (stopServer_correlator_fields s).1,
    (monitorCheck_correlator_fields r s).1,
    handleServerResponse_counter s resp,
    handleServerResponse_pendingInv s resp h⟩
  · rcases sendRequest_counter s m p o with hc | hc <;> omega
  · intro hne
    exact ⟨sendRequest_counter_of_sent s m p o hne, fresh_key_not_pending s h⟩

theorem request_ids_unique_counter_monotonic_witness :
    PendingInv demoServer ∧
    PendingInv
      (sendRequest demoServer "tools/list" none SendOutcome.timeout).server ∧
    demoServer.request_id_counter + 1 ∉ demoServer.pending_requests :=
  ⟨by decide,
   (request_ids_unique_counter_monotonic demoServer (by decide) "tools/list"
      none SendOutcome.timeout SpawnOutcome.ok 0 true []).1,
   (fresh_key_not_pending demoServer (by decide))⟩

/-- C2: a request whose `asyncio.wait_for` hits the fixed 30-second
deadline has its pending entry removed and its caller receives the
timeout failure, and a response frame carrying that request's id arriving
afterwards matches no pending entry: `_handle_server_response` leaves the
state unchanged and classifies the frame as unsolicited (logged,
propagated to no caller). -/
theorem timeout_evicts_entry_and_late_response_is_discarded
    (s : MCPServerInstance) (h : PendingInv s) (m : String) (p : Option JObj)
    (hrun : s.status = ServerStatus.running) (hproc : s.process ≠ none)
    (resp : JObj) (v : JValue)
    (hid : dictGet resp "id" = some v)
    (hk : frameKey v = some (s.request_id_counter + 1)) :
    (sendRequest s m p SendOutcome.timeout).result =
      SendResult.timedOutErr ∧
    (sendRequest s m p SendOutcome.timeout).server.pending_requests =
      s.pending_requests ∧
    s.request_id_counter + 1 ∉
      (sendRequest s m p SendOutcome.timeout).server.pending_requests ∧
    handleServerResponse (sendRequest s m p SendOutcome.timeout).server resp =
      ((sendRequest s m p SendOutcome.timeout).server,
        HandleAction.unsolicited) ∧
    requestTimeoutSeconds = 30 := by
  have hfresh := fresh_key_not_pending s h
  have hpend := sendRequest_pending_eq s m p SendOutcome.timeout hfresh
  have hg : ¬ (s.status ≠ ServerStatus.running ∨ s.process = none) := by
    rintro (hne | hpn)
    · exact hne hrun
    · exact hproc hpn
  have hnm : s.request_id_counter + 1 ∉
      (sendRequest s m p SendOutcome.timeout).server.pending_requests := by
    rw [hpend]; exact hfresh
  exact ⟨sendRequest_timeout_result s m p hg, hpend, hnm,
    handleServerResponse_no_key_unchanged _ resp v _ hid hk hnm, rfl⟩

theorem timeout_evicts_entry_and_late_response_is_discarded_witness :
    PendingInv demoServer ∧
    demoServer.status = ServerStatus.running ∧
    (sendRequest demoServer "tools/call" none SendOutcome.timeout).result =
      SendResult.timedOutErr :=
  ⟨by decide, rfl,
   (timeout_evicts_entry_and_late_response_is_discarded demoServer (by decide)
      "tools/call" none rfl (by decide)
      [("jsonrpc", JValue.str "2.0"), ("id", JValue.num 3)]
      (JValue.num 3) rfl rfl).1⟩

/-- C3: every entry placed into the outstanding-request map is removed
exactly once and never left dangling: a completed `_send_request` — on the
response path, the timeout path and the write-error path alike — returns
the map to its pre-call value with its allocated id absent;
`_handle_server_response` removes exactly the matched entry when one is
present (the matched id was pending and is pending no longer) and touches
nothing when no entry matches (so a second removal of the same id is
impossible); and `_stop_server` leaves the map unchanged, each remaining
entry still owned by its waiting caller, whose 30-second timeout resolves
it. -/
theorem pending_entries_removed_exactly_once (s : MCPServerInstance)
    (h : PendingInv s) (m : String) (p : Option JObj) (o : SendOutcome)
    (resp : JObj) :
    (sendRequest s m p o).server.pending_requests = s.pending_requests ∧
    s.request_id_counter + 1 ∉
      (sendRequest s m p o).server.pending_requests ∧
    (∀ rid r, handleServerResponse s resp = (r, HandleAction.resolved rid resp) →
      rid ∈ s.pending_requests ∧
      r.pending_requests = s.pending_requests.erase rid ∧
      rid ∉ r.pending_requests) ∧
    ((handleServerResponse s resp).2 = HandleAction.unsolicited →
      (handleServerResponse s resp).1 = s) ∧
    (stopServer s).pending_requests = s.pending_requests := by
  have hfresh := fresh_key_not_pending s h
  have hpend := sendRequest_pending_eq s m p o hfresh
  refine ⟨hpend, by rw [hpend]; exact hfresh, ?_, ?_,
    (stopServer_correlator_fields s).2⟩
  · intro rid r heq
    exact handleServerResponse_resolved_inv s resp rid r h.1 heq
  · exact handleServerResponse_unsolicited_unchanged s resp

/-- C5: when the monitor loop observes that the child has exited
(hypotheses: config enabled, handle present, returncode set), the record
transitions to `Failed` and the failure counter increments by one; a
restart (after a backoff of exactly `min(2 ^ failures, 30)` seconds,
`failures` being the just-incremented counter) is scheduled exactly when
`restart_on_failure` is set and the incremented counter is below 5;
otherwise the loop breaks permanently, the status remaining `Failed`. -/
theorem monitor_crash_transition_and_restart_policy (s : MCPServerInstance)
    (ph : ProcHandle) (rc : Int) (hen : s.config.enabled = true)
    (hproc : s.process = some ph) (hdead : ph.returncode = some rc) :
    ((monitorCheck true s).1).status = ServerStatus.failed ∧
    ((monitorCheck true s).1).failure_count = s.failure_count + 1 ∧
    (s.config.restart_on_failure = true ∧ s.failure_count + 1 < 5 →
      (monitorCheck true s).2 =
        MonitorAction.restartAfter (min (2 ^ (s.failure_count + 1)) 30)) ∧
    (¬ (s.config.restart_on_failure = true ∧ s.failure_count + 1 < 5) →
      (monitorCheck true s).2 = MonitorAction.breakLoop) := by
  unfold monitorCheck
  rw [if_neg (not_not_intro ⟨rfl, hen⟩), hproc]
  dsimp only
  rw [hdead]
  dsimp only
  by_cases hr : s.config.restart_on_failure = true ∧ s.failure_count + 1 < 5
  · rw [if_pos hr]
    exact ⟨rfl, rfl, fun _ => rfl, fun hcon => absurd hr hcon⟩
  · rw [if_neg hr]
    exact ⟨rfl, rfl, fun hcon => absurd hcon hr, fun _ => rfl⟩

theorem monitor_crash_transition_and_restart_policy_witness :
    crashedServer.config.enabled = true ∧
    ((monitorCheck true crashedServer).1).status = ServerStatus.failed ∧
    ((monitorCheck true crashedServer).1).failure_count = 1 ∧
    (monitorCheck true crashedServer).2 = MonitorAction.restartAfter 2 :=
  ⟨rfl,
   (monitor_crash_transition_and_restart_policy crashedServer
      { returncode := some 1 } 1 rfl rfl rfl).1,
   (monitor_crash_transition_and_restart_policy crashedServer
      { returncode := some 1 } 1 rfl rfl rfl).2.1,
   (monitor_crash_transition_and_restart_policy crashedServer
      { returncode := some 1 } 1 rfl rfl rfl).2.2.1 ⟨rfl, by decide⟩⟩

/-- C6: counter-execution showing the claim fails on the code.  The
monitor observes the crash while the pool is still running and enters its
backoff sleep (`restartAfter 2`); `stop()` then completes — `running`
becomes false and the server is stopped.  When the backoff elapses the
loop's next statement calls `_start_server` without re-checking the
`running` flag, so a fresh child is spawned (status `Running`, live
handle) on a pool whose `running` flag is false: the shutting-down
condition is checked only at the top of the loop, not before the restart
attempt. -/
theorem restart_backoff_respawns_after_stop_all :
    (monitorCheck true crashedServer).2 = MonitorAction.restartAfter 2 ∧
    (stopAll poolAtShutdown).running = false ∧
    alistGet (stopAll poolAtShutdown).servers "srv" =
      some (stopServer serverAtBackoff) ∧
    (monitorResumeAfterBackoff (stopServer serverAtBackoff)
        SpawnOutcome.ok 100).status = ServerStatus.running ∧
    (monitorResumeAfterBackoff (stopServer serverAtBackoff)
        SpawnOutcome.ok 100).process = some { returncode := none } := by
  decide

/-- C7 counterexample: the claim "a record in status `Stopped` or `Failed`
has no handle" fails at the state reached when the monitor loop marks a
crashed server `Failed` — the dead child's handle is left in place. -/
theorem failed_status_retains_handle_counterexample :
    ((monitorCheck true crashedServer).1).status = ServerStatus.failed ∧
    ((monitorCheck true crashedServer).1).process =
      some { returncode := some 1 } := by
  decide

/-- C7 (amended): at operation boundaries, a fresh record is `Stopped`
with no handle; a successful spawn installs a live handle together with
status `Running`; a failed spawn marks `Failed` while leaving the previous
handle value in place (possibly a dead one from an earlier run); and
`_stop_server` always leaves no handle, with status `Stopped` whenever a
handle was present.  `Failed` (after crash detection or failed respawn)
may retain a dead handle, and the transient `Starting` phase precedes the
handle installation. -/
theorem handle_presence_vs_status_amended (s : MCPServerInstance)
    (cfg : MCPServerConfig) (e : String) (n : Nat) :
    ({ config := cfg } : MCPServerInstance).status = ServerStatus.stopped ∧
    ({ config := cfg } : MCPServerInstance).process = none ∧
    (startServer s SpawnOutcome.ok n).status = ServerStatus.running ∧
    (startServer s SpawnOutcome.ok n).process = some { returncode := none } ∧
    (startServer s (SpawnOutcome.fail e) n).status = ServerStatus.failed ∧
    (startServer s (SpawnOutcome.fail e) n).process = s.process ∧
    (stopServer s).process = none ∧
    (s.process ≠ none → (stopServer s).status = ServerStatus.stopped) := by
  refine ⟨rfl, rfl, rfl, rfl, rfl, rfl, ?_, ?_⟩
  · unfold stopServer
    rcases h : s.process with _ | ph
    · exact h
    · rfl
  · intro hp
    unfold stopServer
    split
    · simp_all
    · rfl

theorem handle_presence_vs_status_amended_witness :
    demoServer.process ≠ none ∧
    (stopServer demoServer).status = ServerStatus.stopped :=
  ⟨by decide,
   (handle_presence_vs_status_amended demoServer demoConfig "boom"
      0).2.2.2.2.2.2.2 (by decide)⟩

/-- C8 counterexample: the claim "the counter increments only when an
abnormal exit of the running process is detected" fails on the spawn
failure path of `_start_server` — a never-started server (no handle, so
no abnormal exit of a running process) has its counter incremented when
the spawn raises. -/
theorem spawn_failure_increments_counter_counterexample :
    freshServer.process = none ∧
    freshServer.status = ServerStatus.stopped ∧
    freshServer.failure_count = 0 ∧
    (startServer freshServer (SpawnOutcome.fail "spawn failed")
        0).failure_count = 1 := by
  decide

/-- C8 (amended): the consecutive-failure counter increments exactly on
the monitor loop's detection of an abnormal exit and on a spawn failure in
`_start_server`; no operation ever resets or decreases it — a successful
start, a stop, a send and the response handler all leave it unchanged. -/
theorem failure_counter_never_resets_amended (s : MCPServerInstance)
    (e : String) (n : Nat) (r : Bool) (m : String) (p : Option JObj)
    (o : SendOutcome) (resp : JObj) :
    (startServer s (SpawnOutcome.fail e) n).failure_count =
      s.failure_count + 1 ∧
    (startServer s SpawnOutcome.ok n).failure_count = s.failure_count ∧
    (stopServer s).failure_count = s.failure_count ∧
    (sendRequest s m p o).server.failure_count = s.failure_count ∧
    ((handleServerResponse s resp).1).failure_count = s.failure_count ∧
    (((monitorCheck r s).1).failure_count = s.failure_count + 1 ∧
        ((monitorCheck r s).1).status = ServerStatus.failed ∨
      (monitorCheck r s).1 = s) := by
  refine ⟨rfl, rfl, ?_, (sendRequest_immutable_fields s m p o).2.2.1, ?_, ?_⟩
  · unfold stopServer
    cases s.process <;> rfl
  · rcases handleServerResponse_cases s resp with ⟨k, hm, hk⟩ | hu
    · rw [hk]
    · rw [hu]
  · unfold monitorCheck
    dsimp only
    repeat' split
    all_goals first
      | exact Or.inl ⟨rfl, rfl⟩
      | exact Or.inr rfl

theorem pending_entries_removed_exactly_once_witness :
    PendingInv demoServer ∧
    (sendRequest demoServer "tools/call" none
        (SendOutcome.response [("jsonrpc", JValue.str "2.0"),
          ("id", JValue.str "3"), ("result", JValue.obj [])])).server.pending_requests =
      demoServer.pending_requests :=
  ⟨by decide,
   (pending_entries_removed_exactly_once demoServer (by decide) "tools/call"
      none (SendOutcome.response [("jsonrpc", JValue.str "2.0"),
        ("id", JValue.str "3"), ("result", JValue.obj [])]) []).1⟩

/-- C4: `call_tool(name, arguments)` raises before anything is sent when
`name` is absent from the registry (the pool state, in particular every
server's correlator and counters, is returned untouched); when the lookup
succeeds and the owning running server replies, a response carrying an
`error` member becomes a failure carrying that error object (hence its
code and message), and otherwise the call returns the response's `result`
object. -/
theorem call_tool_routing_and_error_conversion (pool : MCPClientPool)
    (name : String) (args : JObj) (o : SendOutcome) (sid : String)
    (srv : MCPServerInstance) (resp : JObj) :
    (alistGet pool.tool_registry name = none →
      callTool pool name args o =
        { pool := pool, result := CallToolResult.toolNotFound }) ∧
    (alistGet pool.tool_registry name = some sid →
     alistGet pool.servers sid = some srv →
     srv.status = ServerStatus.running → srv.process ≠ none →
      (dictContains resp "error" = true →
        (callTool pool name args (SendOutcome.response resp)).result =
          CallToolResult.toolExecutionFailed
            (dictGetD resp "error" JValue.null)) ∧
      (dictContains resp "error" = false →
        (callTool pool name args (SendOutcome.response resp)).result =
          CallToolResult.ok (dictGetD resp "result" (JValue.obj []))) ∧
      (∀ rv, dictContains resp "error" = false →
        dictGet resp "result" = some rv →
        (callTool pool name args (SendOutcome.response resp)).result =
          CallToolResult.ok rv)) := by
  constructor
  · intro h
    unfold callTool
    rw [h]
  · intro hreg hsrv hrun hproc
    have hg := running_guard_neg srv hrun hproc
    have hres := sendRequest_response_result srv "tools/call"
      (some [("name", JValue.str name), ("arguments", JValue.obj args)])
      resp hg
    refine ⟨?_, ?_, ?_⟩
    · intro hce
      unfold callTool
      rw [hreg]
      dsimp only
      rw [hsrv]
      dsimp only
      rw [hres]
      dsimp only
      rw [if_pos hce]
    · intro hcf
      unfold callTool
      rw [hreg]
      dsimp only
      rw [hsrv]
      dsimp only
      rw [hres]
      dsimp only
      rw [if_neg (by simp [hcf])]
    · intro rv hcf hrv
      unfold callTool
      rw [hreg]
      dsimp only
      rw [hsrv]
      dsimp only
      rw [hres]
      dsimp only
      rw [if_neg (by simp [hcf])]
      unfold dictGetD
      rw [hrv]
      rfl

theorem call_tool_routing_and_error_conversion_witness :
    alistGet demoReadyPool.tool_registry "nonexistent" = none ∧
    callTool demoReadyPool "nonexistent" [] SendOutcome.timeout =
      { pool := demoReadyPool, result := CallToolResult.toolNotFound } ∧
    (callTool demoReadyPool "echo" []
        (SendOutcome.response demoErrorResp)).result =
      CallToolResult.toolExecutionFailed demoError :=
  ⟨by decide,
   (call_tool_routing_and_error_conversion demoReadyPool "nonexistent" []
      SendOutcome.timeout "srv" demoServer demoErrorResp).1 (by decide),
   ((call_tool_routing_and_error_conversion demoReadyPool "echo" []
      SendOutcome.timeout "srv" demoServer demoErrorResp).2 (by decide)
      (by decide) rfl (by decide)).1 (by decide)⟩

/-- C10: a success response that carries no `error` member and no
`result` member makes `call_tool` return the empty object
(`response.get("result", empty dict)`) rather than fail, exactly as if the
server had sent an explicitly empty result. -/
theorem call_tool_missing_result_yields_empty_object (pool : MCPClientPool)
    (name : String) (args : JObj) (sid : String) (srv : MCPServerInstance)
    (resp : JObj)
    (hreg : alistGet pool.tool_registry name = some sid)
    (hsrv : alistGet pool.servers sid = some srv)
    (hrun : srv.status = ServerStatus.running) (hproc : srv.process ≠ none)
    (herr : dictGet resp "error" = none)
    (hres : dictGet resp "result" = none) :
    (callTool pool name args (SendOutcome.response resp)).result =
      CallToolResult.ok (JValue.obj []) := by
  have hg := running_guard_neg srv hrun hproc
  have hok := sendRequest_response_result srv "tools/call"
    (some [("name", JValue.str name), ("arguments", JValue.obj args)])
    resp hg
  unfold callTool
  rw [hreg]
  dsimp only
  rw [hsrv]
  dsimp only
  rw [hok]
  dsimp only
  rw [if_neg (by simp [dictContains, herr])]
  unfold dictGetD
  rw [hres]
  rfl

/-! Pool-level lemmas: association-list dict operations and preservation
of the lifecycle view across discovery. -/

theorem alistGet_insert {β : Type} (l : List (String × β)) (k : String)
    (v : β) (q : String) :
    alistGet (alistInsert l k v) q =
      if k = q then some v else alistGet l q := by
  induction l with
  | nil => simp [alistInsert, alistGet]
  | cons hd tl ih =>
      obtain ⟨a, b⟩ := hd
      by_cases h1 : a = k
      · subst h1
        by_cases h2 : a = q
        · subst h2
          simp [alistInsert, alistGet]
        · simp [alistInsert, alistGet, h2]
      · by_cases h2 : a = q
        · subst h2
          have h3 : ¬ k = a := fun hk => h1 hk.symm
          simp [alistInsert, alistGet, h1, h3]
        · simp [alistInsert, alistGet, h1, h2, ih]

theorem alistGet_keymap {β γ : Type} (f : String → β → γ)
    (l : List (String × β)) (k : String) :
    alistGet (l.map (fun e => (e.1, f e.1 e.2))) k =
      (alistGet l k).map (f k) := by
  induction l with
  | nil => rfl
  | cons hd tl ih =>
      obtain ⟨a, b⟩ := hd
      dsimp only [List.map]
      unfold alistGet
      by_cases h : a = k
      · subst h
        rw [if_pos rfl, if_pos rfl]
        rfl
      · rw [if_neg h, if_neg h]
        exact ih

theorem alistGet_startPhase (pool : MCPClientPool)
    (outcomes : String → SpawnOutcome) (now : Nat) (k : String) :
    alistGet (startPhase pool outcomes now).servers k =
      (alistGet pool.servers k).map
        (fun s => startServer s (outcomes k) now) :=
  alistGet_keymap (fun i s => startServer s (outcomes i) now) pool.servers k

theorem alistGet_stopAll (pool : MCPClientPool) (k : String) :
    alistGet (stopAll pool).servers k =
      (alistGet pool.servers k).map stopServer :=
  alistGet_keymap (fun _ s => stopServer s) pool.servers k

theorem alistGet_getStatus (pool : MCPClientPool) (k : String) :
    alistGet (getStatus pool) k =
      (alistGet pool.servers k).map (fun s => s.status) := by
  unfold getStatus
  exact alistGet_keymap (fun _ s => s.status) pool.servers k

theorem stopServer_process_none (s : MCPServerInstance) :
    (stopServer s).process = none := by
  unfold stopServer
  rcases h : s.process with _ | ph
  · exact h
  · rfl

theorem stopServer_status_of_present (s : MCPServerInstance)
    (h : s.process ≠ none) : (stopServer s).status = ServerStatus.stopped := by
  unfold stopServer
  split
  · simp_all
  · rfl

theorem initServers_fold_preserves (configs : List MCPServerConfig)
    (acc : List (String × MCPServerInstance)) (k : String)
    (h : (alistGet acc k).isSome = true) :
    (alistGet (configs.foldl
      (fun a config =>
        if config.enabled then alistInsert a config.id { config := config }
        else a) acc) k).isSome = true := by
  induction configs generalizing acc with
  | nil => exact h
  | cons c t ih =>
      rw [List.foldl_cons]
      apply ih
      by_cases hc : c.enabled = true
      · rw [if_pos hc, alistGet_insert]
        by_cases hk : c.id = k
        · rw [if_pos hk]; rfl
        · rw [if_neg hk]; exact h
      · rw [if_neg hc]; exact h

theorem initServers_fold_mem (configs : List MCPServerConfig)
    (acc : List (String × MCPServerInstance)) (cfg : MCPServerConfig)
    (hmem : cfg ∈ configs) (hen : cfg.enabled = true) :
    (alistGet (configs.foldl
      (fun a config =>
        if config.enabled then alistInsert a config.id { config := config }
        else a) acc) cfg.id).isSome = true := by
  induction configs generalizing acc with
  | nil => cases hmem
  | cons c t ih =>
      rw [List.foldl_cons]
      rcases List.mem_cons.mp hmem with heq | htl
      · subst heq
        by_cases hin : cfg ∈ t
        · exact ih _ hin
        · apply initServers_fold_preserves
          rw [if_pos hen, alistGet_insert, if_pos rfl]
          rfl
      · exact ih _ htl

theorem initServers_isSome (pool : MCPClientPool) (cfg : MCPServerConfig)
    (hmem : cfg ∈ pool.server_configs) (hen : cfg.enabled = true) :
    (alistGet (initServers pool).servers cfg.id).isSome = true :=
  initServers_fold_mem pool.server_configs pool.servers cfg hmem hen

theorem insert_sent_view (pool : MCPClientPool) (sid : String)
    (srv : MCPServerInstance) (o : SendOutcome) (k : String)
    (h : alistGet pool.servers sid = some srv) :
    (alistGet (alistInsert pool.servers sid
        (sendRequest srv "tools/list" none o).server) k).map serverLifeView =
      (alistGet pool.servers k).map serverLifeView := by
  rw [alistGet_insert]
  by_cases hk : sid = k
  · rw [if_pos hk, ← hk, h]
    have hfields := sendRequest_immutable_fields srv "tools/list" none o
    simp only [Option.map_some', serverLifeView, hfields.1, hfields.2.1]
  · rw [if_neg hk]

theorem discoverOne_view (pool : MCPClientPool) (sid : String)
    (o : SendOutcome) (k : String) :
    (alistGet (discoverOne pool sid o).servers k).map serverLifeView =
      (alistGet pool.servers k).map serverLifeView := by
  unfold discoverOne
  rcases h : alistGet pool.servers sid with _ | srv
  · rfl
  · try dsimp only
    by_cases hr : srv.status = ServerStatus.running
    · rw [if_pos hr]
      try dsimp only
      rcases hres : (sendRequest srv "tools/list" none o).result with
        resp | _ | _ | e <;>
        exact insert_sent_view pool sid srv o k h
    · rw [if_neg hr]

theorem discover_fold_view (ids : List String) (pool : MCPClientPool)
    (outcomes : String → SendOutcome) (k : String) :
    (alistGet (ids.foldl
        (fun p sid => discoverOne p sid (outcomes sid)) pool).servers k).map
      serverLifeView =
      (alistGet pool.servers k).map serverLifeView := by
  induction ids generalizing pool with
  | nil => rfl
  | cons i t ih =>
      rw [List.foldl_cons, ih, discoverOne_view]

theorem discoverTools_view (pool : MCPClientPool)
    (outcomes : String → SendOutcome) (k : String) :
    (alistGet (discoverTools pool outcomes).servers k).map serverLifeView =
      (alistGet pool.servers k).map serverLifeView := by
  unfold discoverTools
  rw [discover_fold_view]

/-- C9: for every enabled config whose spawn succeeds, `get_status`
reports `Running` immediately after `start` (start_all) returns — the
discovery pass only exercises the correlator and never touches status —
and reports `Stopped` immediately after `stop` (stop_all) returns; and
stopping transitions any record that still holds a handle, including one
whose child has already exited (returncode set), to `Stopped` with the
handle cleared. -/
theorem status_running_after_start_stopped_after_stop (pool : MCPClientPool)
    (outcomes : String → SpawnOutcome) (now : Nat)
    (disc : String → SendOutcome) (cfg : MCPServerConfig)
    (hmem : cfg ∈ pool.server_configs) (hen : cfg.enabled = true)
    (hok : outcomes cfg.id = SpawnOutcome.ok) :
    alistGet (getStatus (startAll pool outcomes now disc)) cfg.id =
      some ServerStatus.running ∧
    alistGet (getStatus (stopAll (startAll pool outcomes now disc))) cfg.id =
      some ServerStatus.stopped ∧
    (∀ (s : MCPServerInstance) (rc : Int),
      s.process = some { returncode := some rc } →
      (stopServer s).status = ServerStatus.stopped ∧
      (stopServer s).process = none) := by
  have h0 := initServers_isSome { pool with running := true } cfg hmem hen
  obtain ⟨s0, hs0⟩ := Option.isSome_iff_exists.mp h0
  have h1 : alistGet (startPhase (initServers { pool with running := true })
      outcomes now).servers cfg.id = some (startServer s0 SpawnOutcome.ok now) := by
    rw [alistGet_startPhase, hs0, hok]
    rfl
  have hview : (alistGet (startAll pool outcomes now disc).servers cfg.id).map
      serverLifeView =
      some (ServerStatus.running, some { returncode := none }) := by
    show (alistGet (discoverTools (startPhase
        (initServers { pool with running := true }) outcomes now)
        disc).servers cfg.id).map serverLifeView = _
    rw [discoverTools_view, h1]
    rfl
  obtain ⟨s1, hs1⟩ : ∃ s1,
      alistGet (startAll pool outcomes now disc).servers cfg.id = some s1 := by
    rcases hc : alistGet (startAll pool outcomes now disc).servers cfg.id with
      _ | s1
    · rw [hc] at hview
      simp at hview
    · exact ⟨s1, rfl⟩
  rw [hs1] at hview
  simp only [Option.map_some', serverLifeView, Option.some.injEq,
    Prod.mk.injEq] at hview
  refine ⟨?_, ?_, ?_⟩
  · rw [alistGet_getStatus, hs1]
    simp [hview.1]
  · rw [alistGet_getStatus, alistGet_stopAll, hs1]
    simp only [Option.map_some', Option.some.injEq]
    apply stopServer_status_of_present
    rw [hview.2]
    exact fun hcon => Option.noConfusion hcon
  · intro s rc hp
    refine ⟨stopServer_status_of_present s ?_, stopServer_process_none s⟩
    rw [hp]
    exact fun hcon => Option.noConfusion hcon

theorem status_running_after_start_stopped_after_stop_witness :
    demoConfig ∈ demoPool.server_configs ∧
    demoConfig.enabled = true ∧
    alistGet (getStatus (startAll demoPool (fun _ => SpawnOutcome.ok) 5
        (fun _ => SendOutcome.timeout))) "srv" =
      some ServerStatus.running ∧
    alistGet (getStatus (stopAll (startAll demoPool (fun _ => SpawnOutcome.ok)
        5 (fun _ => SendOutcome.timeout)))) "srv" =
      some ServerStatus.stopped :=
  ⟨by decide, rfl,
   (status_running_after_start_stopped_after_stop demoPool
      (fun _ => SpawnOutcome.ok) 5 (fun _ => SendOutcome.timeout) demoConfig
      (by decide) rfl rfl).1,
   (status_running_after_start_stopped_after_stop demoPool
      (fun _ => SpawnOutcome.ok) 5 (fun _ => SendOutcome.timeout) demoConfig
      (by decide) rfl rfl).2.1⟩

theorem call_tool_missing_result_yields_empty_object_witness :
    dictGet demoBareResp "result" = none ∧
    (callTool demoReadyPool "echo" []
        (SendOutcome.response demoBareResp)).result =
      CallToolResult.ok (JValue.obj []) :=
  ⟨rfl,
   call_tool_missing_result_yields_empty_object demoReadyPool "echo" []
     "srv" demoServer demoBareResp (by decide) (by decide) rfl (by decide)
     rfl rfl⟩

end MCPPool
